import Mathlib

/-!
Verification development for the terrain raster script of this repository
(source file interesting_topography.py).  The script parses Ordnance Survey
ASCII grid tiles, merges them into one composite raster and rescales the
result to the 0-255 intensity range.  Every definition below is a shallow
embedding of the corresponding Python function, with Python floats modelled
as rationals, Python and numpy exceptions modelled through an explicit error
type, and numpy arrays modelled as lists of lists of rationals.
-/

namespace InterestingTopography

/-- Failure outcomes.  The constructors valueError and indexError model the
builtin Python exceptions the script can actually raise (ValueError from
int/float conversion, from max/min of an empty sequence, from unpacking a
short generator or from np.zeros on a negative dimension; IndexError from a
numpy write outside the array).  The constructor nonFinite models numpy
division by zero: numpy does not raise, it produces inf and then nan values,
which the rational model cannot represent, so a computation whose result
would contain non-finite values is mapped to this error.  The remaining
constructors name the categorized errors that the specification document
describes (MalformedHeaderError, RowLengthError, EmptyTileSetError,
InconsistentResolutionError, OutOfBoundsWriteError, DegenerateRangeError);
they exist so that claims about those errors can be stated.  No definition
below ever produces them, because no such classes exist in the source. -/
inductive PyErr where
  | valueError
  | indexError
  | nonFinite
  | malformedHeaderError
  | rowLengthError
  | emptyTileSetError
  | inconsistentResolutionError
  | outOfBoundsWriteError
  | degenerateRangeError
deriving DecidableEq

/-- Decidable equality of outcomes, so that concrete runs of the embedded
functions can be checked by evaluation. -/
instance {ε α : Type} [DecidableEq ε] [DecidableEq α] : DecidableEq (Except ε α) := fun a b =>
  match a, b with
  | .error e1, .error e2 =>
    if h : e1 = e2 then .isTrue (by rw [h]) else .isFalse (fun hc => h (Except.error.inj hc))
  | .ok x, .ok y =>
    if h : x = y then .isTrue (by rw [h]) else .isFalse (fun hc => h (Except.ok.inj hc))
  | .error e1, .ok y => .isFalse (fun hc => Except.noConfusion hc)
  | .ok x, .error e2 => .isFalse (fun hc => Except.noConfusion hc)

/-- A single tile, the class HeightCell of the source (lines 27-58).
Field names follow the attribute names set in HeightCell.__init__:
xsize and ysize are the column and row counts from the header, xcorner and
ycorner the lower-left corner coordinates, size the cell size, heights the
parsed rows of values and exclude the list of sentinel values.  The derived
attributes self.min and self.max are modelled by the functions minVal and
maxVal below, and the constructor by mkHeightCell. -/
structure HeightCell where
  xsize : ℤ
  ysize : ℤ
  xcorner : ℚ
  ycorner : ℚ
  size : ℚ
  heights : List (List ℚ)
  exclude : List ℚ
deriving DecidableEq

/-- HeightCell.flattened (source lines 51-58): the row-major flattening of
the height values, with every value that occurs in the exclude list replaced
by None (modelled as none). -/
def HeightCell.flattened (c : HeightCell) : List (Option ℚ) :=
  (c.heights.flatten).map (fun h => if h ∈ c.exclude then none else some h)

/-- The list valid_values of HeightCell.__init__ (source line 46): the
flattened values with the None entries filtered out. -/
def HeightCell.validValues (c : HeightCell) : List ℚ :=
  c.flattened.filterMap id

/-- The attribute self.min set in HeightCell.__init__ (source line 48):
the Python builtin min of valid_values. -/
def HeightCell.minVal (c : HeightCell) : Option ℚ :=
  c.validValues.min?

/-- The attribute self.max set in HeightCell.__init__ (source line 47):
the Python builtin max of valid_values. -/
def HeightCell.maxVal (c : HeightCell) : Option ℚ :=
  c.validValues.max?

/-- HeightCell.__init__ (source lines 31-48).  Building the record itself
never fails, but the constructor evaluates max and min of valid_values,
and the Python builtins max and min raise ValueError on an empty sequence,
so construction fails exactly when every value is excluded or there is no
value at all. -/
def mkHeightCell (cols rows : ℤ) (xc yc cs : ℚ) (heights : List (List ℚ))
    (exclude : List ℚ) : Except PyErr HeightCell :=
  let cell : HeightCell := ⟨cols, rows, xc, yc, cs, heights, exclude⟩
  if cell.validValues = [] then .error .valueError else .ok cell

/-- One whitespace-separated token of an input line, after the split
performed by importAsc.  intTok n is a token that Python int() and float()
both accept (an integer literal); floatTok q is a token that float() accepts
but int() rejects (a literal with a fractional part such as -0.9); wordTok
is a token that neither conversion accepts (such as the header key ncols or
nodata_value). -/
inductive Token where
  | intTok (n : ℤ)
  | floatTok (q : ℚ)
  | wordTok
deriving DecidableEq

/-- Python float() applied to a token: succeeds on numeric tokens only. -/
def Token.toFloat : Token → Option ℚ
  | .intTok n => some (n : ℚ)
  | .floatTok q => some q
  | .wordTok => none

/-- Python int() applied to a token: succeeds on integer tokens only. -/
def Token.toInt : Token → Option ℤ
  | .intTok n => some n
  | .floatTok _ => none
  | .wordTok => none

/-- The header-line expression int(l.split(" ")[-1]) of importAsc (source
line 70): take the last token of the line and convert it with int().
Indexing [-1] into an empty token list raises IndexError; a failed int()
conversion raises ValueError. -/
def parseHeaderLine (l : List Token) : Except PyErr ℤ :=
  match l.getLast? with
  | none => .error .indexError
  | some t =>
    match t.toInt with
    | some n => .ok n
    | none => .error .valueError

/-- The generator (int(l.split(" ")[-1]) for l in lines[:5]) of importAsc
(source line 70), fully evaluated: header values of the given lines in
order, failing on the first line whose last token is not an integer. -/
def parseHeaders : List (List Token) → Except PyErr (List ℤ)
  | [] => .ok []
  | l :: ls => do
    let n ← parseHeaderLine l
    let ns ← parseHeaders ls
    .ok (n :: ns)

/-- The expression list(map(float, tokens)) applied to one data line of
importAsc (source line 73): every token is converted with float(), and the
first non-numeric token raises ValueError. -/
def parseFloats : List Token → Except PyErr (List ℚ)
  | [] => .ok []
  | t :: ts =>
    match t.toFloat with
    | none => .error .valueError
    | some q => do
      let qs ← parseFloats ts
      .ok (q :: qs)

/-- The list comprehension of importAsc (source line 73) over all lines
after the fifth: each remaining line is converted to a list of floats.
No check of any kind is made on the number of tokens per line. -/
def parseRows : List (List Token) → Except PyErr (List (List ℚ))
  | [] => .ok []
  | l :: ls => do
    let r ← parseFloats l
    let rs ← parseRows ls
    .ok (r :: rs)

/-- importAsc (source lines 61-80).  The first five lines are header lines,
each contributing int(last token); unpacking the five header values fails
with ValueError when fewer than five lines are present.  Every line after
the fifth is parsed as a data row of floats, with no row-length validation.
The exclude list passed to HeightCell is always empty (source line 76). -/
def importAsc (lines : List (List Token)) : Except PyErr HeightCell := do
  let hdr ← parseHeaders (lines.take 5)
  match hdr with
  | [cols, rows, xc, yc, cs] =>
    let heights ← parseRows (lines.drop 5)
    mkHeightCell cols rows (xc : ℚ) (yc : ℚ) (cs : ℚ) heights []
  | _ => .error .valueError

/-- Python builtin min over a list, raising ValueError on an empty list. -/
def npMin (l : List ℚ) : Except PyErr ℚ :=
  match l.min? with
  | some q => .ok q
  | none => .error .valueError

/-- Python builtin max over a list, raising ValueError on an empty list. -/
def npMax (l : List ℚ) : Except PyErr ℚ :=
  match l.max? with
  | some q => .ok q
  | none => .error .valueError

/-- The dict returned by getDimensions (source lines 196-203).  The fields
cell_size, cell_side, cell_rows, min_x, min_y and max_y keep their Python
float values as rationals; img_width and img_height are Python ints. -/
structure Dimensions where
  cell_size : ℚ
  cell_side : ℚ
  cell_rows : ℚ
  img_width : ℤ
  img_height : ℤ
  min_x : ℚ
  min_y : ℚ
  max_y : ℚ
deriving DecidableEq

/-- getDimensions (source lines 163-203).  The grid parameters are the fixed
constants cell_size = 10000 and measurement_interval = 50 (lines 176-177),
giving cell_side = 200; nothing from the tiles except their corner
coordinates enters the computation.  The bounding box comes from the max and
min of the corner coordinate lists (builtin max/min, so an empty tile list
raises ValueError).  Floor division of Python floats is modelled with the
rational floor; the int() conversions around it are identities because their
arguments are already integral.  The local cell_res of line 179 and
cell_cols of line 191 are dead in the source and are not modelled; the
source assigns cell_rows from ground_width (line 192), which is kept
faithfully. -/
def getDimensions (cells : List HeightCell) : Except PyErr Dimensions := do
  let cell_size : ℚ := 10000
  let cell_side : ℚ := cell_size / 50
  let max_x0 ← npMax (cells.map (fun c => c.xcorner))
  let max_y0 ← npMax (cells.map (fun c => c.ycorner))
  let min_x ← npMin (cells.map (fun c => c.xcorner))
  let min_y ← npMin (cells.map (fun c => c.ycorner))
  let max_x := max_x0 + cell_size
  let max_y := max_y0 + cell_size
  let ground_width := max_x - min_x
  let ground_height := max_y - min_y
  .ok { cell_size := cell_size
        cell_side := cell_side
        cell_rows := ((⌊ground_width / cell_size⌋ : ℤ) : ℚ)
        img_width := ⌊ground_width * cell_side / cell_size⌋
        img_height := ⌊ground_height * cell_side / cell_size⌋
        min_x := min_x
        min_y := min_y
        max_y := max_y }

/-- Python int() applied to a float: truncation toward zero. -/
def pyInt (q : ℚ) : ℤ :=
  if q < 0 then ⌈q⌉ else ⌊q⌋

/-- Resolution of a numpy index against an axis of length n: a nonnegative
index must be below n, a negative index wraps around once, anything else
raises IndexError. -/
def npIdx (n : ℕ) (i : ℤ) : Option ℕ :=
  if 0 ≤ i ∧ i < (n : ℤ) then some i.toNat
  else if -(n : ℤ) ≤ i ∧ i < 0 then some ((n : ℤ) + i).toNat
  else none

/-- The assignment heights_combined[px_row][px_col] = h of combineCells
(source line 246), with numpy index semantics on both axes. -/
def npSetAt (m : List (List ℚ)) (r c : ℤ) (v : ℚ) : Except PyErr (List (List ℚ)) :=
  match npIdx m.length r with
  | none => .error .indexError
  | some ri =>
    match m[ri]? with
    | none => .error .indexError
    | some row =>
      match npIdx row.length c with
      | none => .error .indexError
      | some ci => .ok (m.set ri (row.set ci v))

/-- The start indices of one cell inside the combined raster, computed in
combineCells (source lines 233-237): cell_col and cell_row from the corner
coordinates and the resolved dimensions, then int() truncation after
multiplying by cell_side.  The components are (cell_start_x, cell_start_y). -/
def cellStart (dims : Dimensions) (cell : HeightCell) : ℤ × ℤ :=
  let cell_col : ℚ := (cell.xcorner - dims.min_x) / dims.cell_size
  let cell_row : ℚ := (dims.max_y - cell.ycorner) / dims.cell_size - 1
  (pyInt (cell_col * dims.cell_side), pyInt (cell_row * dims.cell_side))

/-- The inner loop of combineCells (source lines 241-246): write the values
of one data row into raster row r starting at column c, advancing the
column by one per value. -/
def writeVals : List (List ℚ) → ℤ → ℤ → List ℚ → Except PyErr (List (List ℚ))
  | m, _, _, [] => .ok m
  | m, r, c, v :: vs => do
    let m2 ← npSetAt m r c v
    writeVals m2 r (c + 1) vs

/-- The middle loop of combineCells (source lines 240-246): write the data
rows into consecutive raster rows starting at row r, each row starting at
column c. -/
def writeRows : List (List ℚ) → ℤ → ℤ → List (List ℚ) → Except PyErr (List (List ℚ))
  | m, _, _, [] => .ok m
  | m, r, c, rw :: rws => do
    let m2 ← writeVals m r c rw
    writeRows m2 (r + 1) c rws

/-- The outer loop of combineCells (source lines 232-246): place every cell
at its start indices in turn. -/
def writeCells (dims : Dimensions) : List (List ℚ) → List HeightCell → Except PyErr (List (List ℚ))
  | m, [] => .ok m
  | m, cell :: cells => do
    let s := cellStart dims cell
    let m2 ← writeRows m s.2 s.1 cell.heights
    writeCells dims m2 cells

/-- combineCells (source lines 222-248): resolve the dimensions, build the
zero-filled raster of shape (img_height, img_width) — np.zeros raises
ValueError on a negative dimension — and write every cell into it. -/
def combineCells (cells : List HeightCell) : Except PyErr (List (List ℚ)) := do
  let dims ← getDimensions cells
  if dims.img_height < 0 ∨ dims.img_width < 0 then .error .valueError
  else
    writeCells dims
      (List.replicate dims.img_height.toNat (List.replicate dims.img_width.toNat 0)) cells

/-- The shift step of scaleHeightData (source lines 211-215): compute the
global minimum (numpy min of an empty array raises ValueError) and, only
when it is negative, subtract it from every value. -/
def shiftHeights (m : List (List ℚ)) : Except PyErr (List (List ℚ)) := do
  let mn ← npMin m.flatten
  if mn < 0 then .ok (m.map (List.map (fun h => h - mn))) else .ok m

/-- scaleHeightData (source lines 206-219): shift, then multiply every value
by 255 / max of the shifted raster.  When that max is zero, numpy evaluates
255.0 / 0.0 to inf without raising and the multiplication fills the raster
with non-finite values; this outcome is modelled as the nonFinite error.
No other failure mode exists: in particular no DegenerateRangeError class
appears anywhere in the source. -/
def scaleHeightData (m : List (List ℚ)) : Except PyErr (List (List ℚ)) := do
  let s ← shiftHeights m
  let mx ← npMax s.flatten
  if mx = 0 then .error .nonFinite
  else .ok (s.map (List.map (fun h => h * (255 / mx))))

/-- The composite-then-normalize stage of makeImage (source lines 264-267):
combineCells followed by scaleHeightData. -/
def compositeAndScale (cells : List HeightCell) : Except PyErr (List (List ℚ)) := do
  let m ← combineCells cells
  scaleHeightData m

/-- Read of one entry of a raster: the value at row i, column j, when both
indices are in range. -/
def cellAt (m : List (List ℚ)) (i j : ℕ) : Option ℚ :=
  (m[i]?).bind (fun row => row[j]?)

/-- Read of one entry of the composite raster of a tile list. -/
def compositeAt (cells : List HeightCell) (i j : ℕ) : Option ℚ :=
  (combineCells cells).toOption.bind (fun m => cellAt m i j)

/-- Read of one entry of the composited and normalized raster of a tile
list. -/
def compositeScaleAt (cells : List HeightCell) (i j : ℕ) : Option ℚ :=
  (compositeAndScale cells).toOption.bind (fun m => cellAt m i j)

/-- Predicate: every row of the raster has width W. -/
def UniformWidth (W : ℕ) (m : List (List ℚ)) : Prop :=
  ∀ row ∈ m, row.length = W

/-- A 200 by 200 tile whose values are 10 everywhere except a single 20,
so its minimum 10 is positive.  Used to test the normalization claim. -/
def tileC1cex : HeightCell :=
  ⟨200, 200, 0, 0, 10000,
    (10 :: 20 :: List.replicate 198 10) :: List.replicate 199 (List.replicate 200 10), []⟩

/-- A 200 by 200 tile whose values are 0 everywhere except a single -1, so
its minimum -1 is negative and its maximum is 0. -/
def tileC1wit : HeightCell :=
  ⟨200, 200, 0, 0, 10000,
    ((-1) :: List.replicate 199 0) :: List.replicate 199 (List.replicate 200 0), []⟩

/-- A one-cell tile whose single value -0.9 is in its exclude list. -/
def tileC3cex : HeightCell := ⟨1, 1, 0, 0, 10000, [[-9/10]], [-9/10]⟩

/-- A two-cell tile whose first value -0.9 is in its exclude list. -/
def tileC3wit : HeightCell := ⟨2, 1, 0, 0, 10000, [[-9/10, 3]], [-9/10]⟩

/-- A 200 by 200 tile of ones at corner (0, 0). -/
def tileC4A : HeightCell :=
  ⟨200, 200, 0, 0, 10000, List.replicate 200 (List.replicate 200 1), []⟩

/-- A 200 by 200 tile of twos at corner (10000, 0). -/
def tileC4B : HeightCell :=
  ⟨200, 200, 10000, 0, 10000, List.replicate 200 (List.replicate 200 2), []⟩

/-- Tile text with ncols 2, nrows 1 and the optional nodata_value header
line present after the five positional header lines. -/
def linesC5var : List (List Token) :=
  [[.wordTok, .intTok 2], [.wordTok, .intTok 1], [.wordTok, .intTok 0],
   [.wordTok, .intTok 0], [.wordTok, .intTok 10000],
   [.wordTok, .floatTok (-9/10)], [.intTok 1, .intTok 2]]

/-- The same tile text without the optional nodata_value line. -/
def linesC5wit : List (List Token) :=
  [[.wordTok, .intTok 2], [.wordTok, .intTok 1], [.wordTok, .intTok 0],
   [.wordTok, .intTok 0], [.wordTok, .intTok 10000], [.intTok 1, .intTok 2]]

/-- Tile text with ncols 2 whose single data row has only one numeric
token. -/
def linesC6cex : List (List Token) :=
  [[.wordTok, .intTok 2], [.wordTok, .intTok 1], [.wordTok, .intTok 0],
   [.wordTok, .intTok 0], [.wordTok, .intTok 10000], [.intTok 7]]

/-- Tile text with ncols 3 whose data rows have one and two numeric tokens
respectively. -/
def linesC6wit : List (List Token) :=
  [[.wordTok, .intTok 3], [.wordTok, .intTok 2], [.wordTok, .intTok 0],
   [.wordTok, .intTok 0], [.wordTok, .intTok 10000],
   [.intTok 7], [.intTok 1, .floatTok (mkRat 1 2)]]

/-- A tile carrying the sentinel -0.9 and an ordinary value, with the
exclude list set to the single sentinel -0.9. -/
def cellC9a : HeightCell := ⟨2, 1, 0, 0, 10000, [[-9/10, 7]], [-9/10]⟩

/-- The same values with an empty exclude list. -/
def cellC9b : HeightCell := ⟨2, 1, 0, 0, 10000, [[-9/10, 7]], []⟩

/-- A single tile declaring 200 columns and rows and cell size 10000. -/
def cellsC10a : List HeightCell := [⟨200, 200, 0, 0, 10000, [[1]], []⟩]

/-- A tile with the same corner and values but different stored column and
row counts and a different stored cell size. -/
def cellsC10b : List HeightCell := [⟨100, 100, 0, 0, 5000, [[1]], []⟩]

/-- Binding a successful Except computation runs the continuation. -/
theorem except_ok_bind {eps alf bet : Type} (a : alf) (f : alf → Except eps bet) :
    (do let x ← Except.ok a; f x) = f a := rfl

/-- Characterization of the minimum of a rational list. -/
theorem rat_min?_eq_some {l : List ℚ} {a : ℚ} :
    l.min? = some a ↔ a ∈ l ∧ ∀ b ∈ l, a ≤ b := by
  have anti : Std.Antisymm (fun x1 x2 : ℚ => x1 ≤ x2) := ⟨fun h1 h2 => le_antisymm h1 h2⟩
  exact List.min?_eq_some_iff (fun x => le_refl x) (fun x y => min_choice x y)
    (fun x y z => le_min_iff)

/-- Characterization of the maximum of a rational list. -/
theorem rat_max?_eq_some {l : List ℚ} {a : ℚ} :
    l.max? = some a ↔ a ∈ l ∧ ∀ b ∈ l, b ≤ a := by
  have anti : Std.Antisymm (fun x1 x2 : ℚ => x1 ≤ x2) := ⟨fun h1 h2 => le_antisymm h1 h2⟩
  exact List.max?_eq_some_iff (fun x => le_refl x) (fun x y => max_choice x y)
    (fun x y z => max_le_iff)

/-- Shifting every element of a list shifts its maximum. -/
theorem max?_map_shift {l : List ℚ} {mx : ℚ} (d : ℚ) (h : l.max? = some mx) :
    (l.map (fun x => x - d)).max? = some (mx - d) := by
  rcases rat_max?_eq_some.1 h with ⟨hm, hb⟩
  refine rat_max?_eq_some.2 ⟨List.mem_map_of_mem _ hm, ?_⟩
  intro b hbm
  rcases List.mem_map.1 hbm with ⟨x, hx, rfl⟩
  have := hb x hx
  linarith

/-- Reading a mapped raster reads the original through the function. -/
theorem cellAt_map (f : ℚ → ℚ) (m : List (List ℚ)) (i j : ℕ) :
    cellAt (m.map (List.map f)) i j = (cellAt m i j).map f := by
  unfold cellAt
  rw [List.getElem?_map]
  cases m[i]? with
  | none => rfl
  | some row => simp [List.getElem?_map]

/-- Reading the constant raster. -/
theorem cellAt_replicate (H W : ℕ) (v : ℚ) (i j : ℕ) :
    cellAt (List.replicate H (List.replicate W v)) i j =
      if i < H ∧ j < W then some v else none := by
  unfold cellAt
  rw [List.getElem?_replicate]
  by_cases hi : i < H
  · rw [if_pos hi, Option.some_bind, List.getElem?_replicate]
    by_cases hj : j < W
    · rw [if_pos hj, if_pos ⟨hi, hj⟩]
    · rw [if_neg hj, if_neg (by omega)]
  · rw [if_neg hi, Option.none_bind, if_neg (by omega)]

/-- Reading below the head of a raster. -/
theorem cellAt_cons_succ (r : List ℚ) (rs : List (List ℚ)) (k j : ℕ) :
    cellAt (r :: rs) (k + 1) j = cellAt rs k j := by
  simp [cellAt]

/-- Reading the head row of a raster. -/
theorem cellAt_cons_zero (r : List ℚ) (rs : List (List ℚ)) (j : ℕ) :
    cellAt (r :: rs) 0 j = r[j]? := by
  simp [cellAt]

/-- Two rasters of the same height with equal reads are equal. -/
theorem eq_of_cellAt {m1 m2 : List (List ℚ)} (hlen : m1.length = m2.length)
    (hc : ∀ i j, cellAt m1 i j = cellAt m2 i j) : m1 = m2 := by
  apply List.ext_getElem?
  intro i
  by_cases hi : i < m1.length
  · obtain ⟨r1, h1⟩ : ∃ r, m1[i]? = some r := by
      rw [List.getElem?_eq_getElem hi]
      exact ⟨_, rfl⟩
    obtain ⟨r2, h2⟩ : ∃ r, m2[i]? = some r := by
      rw [List.getElem?_eq_getElem (show i < m2.length by omega)]
      exact ⟨_, rfl⟩
    rw [h1, h2]
    have hrow : ∀ j : ℕ, r1[j]? = r2[j]? := by
      intro j
      have hcj := hc i j
      unfold cellAt at hcj
      rwa [h1, h2, Option.some_bind, Option.some_bind] at hcj
    exact congrArg some (List.ext_getElem? hrow)
  · rw [List.getElem?_eq_none (by omega), List.getElem?_eq_none (by omega)]

/-- Writing one value at valid indices produces the expected set. -/
theorem npSetAt_ok {m : List (List ℚ)} {rn cn : ℕ} {row : List ℚ} (v : ℚ)
    (hr : m[rn]? = some row) (hc : cn < row.length) :
    npSetAt m (rn : ℤ) (cn : ℤ) v = .ok (m.set rn (row.set cn v)) := by
  have hrn : rn < m.length := by
    rcases List.getElem?_eq_some_iff.1 hr with ⟨h, _⟩
    exact h
  have h1 : npIdx m.length (rn : ℤ) = some rn := by
    unfold npIdx
    rw [if_pos ⟨Int.ofNat_nonneg rn, by exact_mod_cast hrn⟩, Int.toNat_natCast]
  have h2 : npIdx row.length (cn : ℤ) = some cn := by
    unfold npIdx
    rw [if_pos ⟨Int.ofNat_nonneg cn, by exact_mod_cast hc⟩, Int.toNat_natCast]
  simp only [npSetAt, h1, hr, h2]

/-- Reading after a single valid write. -/
theorem cellAt_set {m : List (List ℚ)} {rn cn : ℕ} {row : List ℚ} (v : ℚ)
    (hr : m[rn]? = some row) (hc : cn < row.length) (i j : ℕ) :
    cellAt (m.set rn (row.set cn v)) i j =
      if i = rn ∧ j = cn then some v else cellAt m i j := by
  have hrn : rn < m.length := by
    rcases List.getElem?_eq_some_iff.1 hr with ⟨h, _⟩
    exact h
  unfold cellAt
  rw [List.getElem?_set]
  by_cases hi : rn = i
  · subst hi
    rw [if_pos rfl, if_pos hrn, Option.some_bind, List.getElem?_set, hr, Option.some_bind]
    by_cases hj : cn = j
    · subst hj
      rw [if_pos rfl, if_pos hc, if_pos ⟨rfl, rfl⟩]
    · rw [if_neg hj, if_neg (by omega)]
  · rw [if_neg hi, if_neg (by omega)]

/-- Full characterization of the inner write loop: writing a row of values
at row rn from column cn succeeds when it stays inside a raster of uniform
width, keeps the shape, and changes exactly the written segment. -/
theorem writeVals_ok (vals : List ℚ) :
    ∀ (m : List (List ℚ)) (rn cn W : ℕ), UniformWidth W m → rn < m.length →
      cn + vals.length ≤ W →
      ∃ m2, writeVals m (rn : ℤ) (cn : ℤ) vals = .ok m2 ∧
        m2.length = m.length ∧ UniformWidth W m2 ∧
        ∀ i j : ℕ, cellAt m2 i j =
          if i = rn ∧ cn ≤ j ∧ j < cn + vals.length then vals[j - cn]?
          else cellAt m i j := by
  induction vals with
  | nil =>
    intro m rn cn W hu hr hc
    refine ⟨m, rfl, rfl, hu, ?_⟩
    intro i j
    rw [if_neg (by simp only [List.length_nil]; omega)]
  | cons v vs ih =>
    intro m rn cn W hu hr hc
    obtain ⟨row, hrow⟩ : ∃ r, m[rn]? = some r := by
      rw [List.getElem?_eq_getElem hr]
      exact ⟨_, rfl⟩
    have hrowW : row.length = W := hu _ (List.getElem?_mem hrow)
    have hcn : cn < row.length := by
      simp only [List.length_cons] at hc
      omega
    have hset := npSetAt_ok v hrow hcn
    have hread1 := cellAt_set v hrow hcn
    set m1 := m.set rn (row.set cn v) with hm1
    have hu1 : UniformWidth W m1 := by
      intro r2 hmem
      rcases List.mem_or_eq_of_mem_set hmem with h | h
      · exact hu _ h
      · rw [h, List.length_set, hrowW]
    have hlen1 : m1.length = m.length := List.length_set m rn _
    obtain ⟨m2, hw2, hlen2, hu2, hread2⟩ :=
      ih m1 rn (cn + 1) W hu1 (by omega) (by simp only [List.length_cons] at hc; omega)
    refine ⟨m2, ?_, by omega, hu2, ?_⟩
    · rw [writeVals, hset]
      show writeVals m1 (rn : ℤ) ((cn : ℤ) + 1) vs = Except.ok m2
      rw [show (cn : ℤ) + 1 = ((cn + 1 : ℕ) : ℤ) by push_cast; ring]
      exact hw2
    · intro i j
      rw [hread2 i j]
      by_cases hA : i = rn ∧ cn + 1 ≤ j ∧ j < cn + 1 + vs.length
      · rw [if_pos hA, if_pos (by simp only [List.length_cons]; omega)]
        rw [show j - cn = (j - (cn + 1)) + 1 by omega, List.getElem?_cons_succ]
      · rw [if_neg hA, hread1 i j]
        by_cases hB : i = rn ∧ j = cn
        · rw [if_pos hB, if_pos (by simp only [List.length_cons]; omega)]
          rw [show j - cn = 0 by omega, List.getElem?_cons_zero]
        · rw [if_neg hB, if_neg (by simp only [List.length_cons]; omega)]

/-- Full characterization of the row loop: writing a block of uniform rows
starting at (rn, cn) succeeds when the block stays inside a raster of
uniform width, keeps the shape, and changes exactly the block. -/
theorem writeRows_ok (rows : List (List ℚ)) (Wr : ℕ) (hrows : ∀ rw1 ∈ rows, rw1.length = Wr) :
    ∀ (m : List (List ℚ)) (rn cn W : ℕ), UniformWidth W m →
      rn + rows.length ≤ m.length → cn + Wr ≤ W →
      ∃ m2, writeRows m (rn : ℤ) (cn : ℤ) rows = .ok m2 ∧
        m2.length = m.length ∧ UniformWidth W m2 ∧
        ∀ i j : ℕ, cellAt m2 i j =
          if rn ≤ i ∧ i < rn + rows.length ∧ cn ≤ j ∧ j < cn + Wr
          then cellAt rows (i - rn) (j - cn)
          else cellAt m i j := by
  induction rows with
  | nil =>
    intro m rn cn W hu hr hc
    refine ⟨m, rfl, rfl, hu, ?_⟩
    intro i j
    rw [if_neg (by simp only [List.length_nil]; omega)]
  | cons rw1 rws ih =>
    intro m rn cn W hu hr hc
    have hrw1 : rw1.length = Wr := hrows rw1 (List.mem_cons_self rw1 rws)
    have hrws : ∀ r2 ∈ rws, r2.length = Wr := fun r2 h2 => hrows r2 (List.mem_cons_of_mem _ h2)
    obtain ⟨m1, hw1, hlen1, hu1, hread1⟩ :=
      writeVals_ok rw1 m rn cn W hu (by simp only [List.length_cons] at hr; omega)
        (by omega)
    obtain ⟨m2, hw2, hlen2, hu2, hread2⟩ :=
      ih hrws m1 (rn + 1) cn W hu1
        (by simp only [List.length_cons] at hr; omega) hc
    refine ⟨m2, ?_, by omega, hu2, ?_⟩
    · rw [writeRows, hw1]
      show writeRows m1 ((rn : ℤ) + 1) (cn : ℤ) rws = Except.ok m2
      rw [show (rn : ℤ) + 1 = ((rn + 1 : ℕ) : ℤ) by push_cast; ring]
      exact hw2
    · intro i j
      rw [hread2 i j]
      by_cases hA : rn + 1 ≤ i ∧ i < rn + 1 + rws.length ∧ cn ≤ j ∧ j < cn + Wr
      · rw [if_pos hA, if_pos (by simp only [List.length_cons]; omega)]
        rw [show i - rn = (i - (rn + 1)) + 1 by omega, cellAt_cons_succ]
      · rw [if_neg hA, hread1 i j]
        by_cases hB : i = rn ∧ cn ≤ j ∧ j < cn + rw1.length
        · rw [if_pos hB, if_pos (by simp only [List.length_cons]; rw [hrw1] at hB; omega)]
          rw [show i - rn = 0 by omega, cellAt_cons_zero]
        · rw [if_neg hB, if_neg (by simp only [List.length_cons]; rw [hrw1] at hB; omega)]

/-- Geometry resolution for a single tile: the constants of the source give
a 200 by 200 output raster whatever the tile's own fields say, with the
bounding box anchored at the tile corner. -/
theorem getDimensions_single (cell : HeightCell) :
    getDimensions [cell] =
      .ok ⟨10000, 200, 1, 200, 200, cell.xcorner, cell.ycorner, cell.ycorner + 10000⟩ := by
  show Except.ok _ = _
  rw [Except.ok.injEq, Dimensions.mk.injEq]
  norm_num

/-- A single tile is always placed at start indices (0, 0). -/
theorem cellStart_single (cell : HeightCell) :
    cellStart ⟨10000, 200, 1, 200, 200, cell.xcorner, cell.ycorner, cell.ycorner + 10000⟩ cell
      = (0, 0) := by
  unfold cellStart pyInt
  norm_num

/-- Compositing a single tile whose value block fits in the fixed 200 by
200 output raster: the raster holds the raw tile values on the block and
the zero fill elsewhere. -/
theorem combineCells_single (cell : HeightCell) (H W : ℕ)
    (hH : cell.heights.length = H) (hW : ∀ r ∈ cell.heights, r.length = W)
    (hH2 : H ≤ 200) (hW2 : W ≤ 200) :
    ∃ raster, combineCells [cell] = .ok raster ∧ raster.length = 200 ∧
      UniformWidth 200 raster ∧
      ∀ i j : ℕ, cellAt raster i j =
        if i < H ∧ j < W then cellAt cell.heights i j
        else if i < 200 ∧ j < 200 then some 0 else none := by
  have hinit_u : UniformWidth 200 (List.replicate 200 (List.replicate 200 (0:ℚ))) := by
    intro r hr
    rw [List.eq_of_mem_replicate hr, List.length_replicate]
  obtain ⟨m2, hw, hlen, hu, hread⟩ :=
    writeRows_ok cell.heights W hW (List.replicate 200 (List.replicate 200 (0:ℚ)))
      0 0 200 hinit_u (by rw [List.length_replicate]; omega) (by omega)
  refine ⟨m2, ?_, by rw [hlen, List.length_replicate], hu, ?_⟩
  · unfold combineCells
    rw [getDimensions_single cell]
    show (if (200:ℤ) < 0 ∨ (200:ℤ) < 0 then Except.error PyErr.valueError
      else writeCells ⟨10000, 200, 1, 200, 200, cell.xcorner, cell.ycorner, cell.ycorner + 10000⟩
        (List.replicate (Int.toNat 200) (List.replicate (Int.toNat 200) 0)) [cell]) = Except.ok m2
    rw [if_neg (by norm_num)]
    rw [writeCells, cellStart_single cell]
    show (do
      let m3 ← writeRows (List.replicate (Int.toNat 200) (List.replicate (Int.toNat 200) 0))
        (0:ℤ) (0:ℤ) cell.heights
      writeCells ⟨10000, 200, 1, 200, 200, cell.xcorner, cell.ycorner, cell.ycorner + 10000⟩
        m3 []) = Except.ok m2
    rw [show Int.toNat 200 = 200 from rfl, show (0:ℤ) = ((0:ℕ):ℤ) by norm_num, hw]
    rfl
  · intro i j
    rw [hread i j, cellAt_replicate]
    by_cases hA : i < H ∧ j < W
    · rw [if_pos (by omega), if_pos hA]
      norm_num
    · rw [if_neg (by omega), if_neg hA]

/-- Compositing a single tile of exactly 200 by 200 values reproduces the
tile value block verbatim. -/
theorem combineCells_single_eq (cell : HeightCell) (hH : cell.heights.length = 200)
    (hW : ∀ r ∈ cell.heights, r.length = 200) :
    combineCells [cell] = .ok cell.heights := by
  obtain ⟨raster, hc, hlen, hu, hread⟩ := combineCells_single cell 200 200 hH hW le_rfl le_rfl
  rw [hc, Except.ok.injEq]
  apply eq_of_cellAt (by omega)
  intro i j
  rw [hread i j]
  by_cases hA : i < 200 ∧ j < 200
  · rw [if_pos hA]
  · rw [if_neg hA, if_neg hA]
    unfold cellAt
    by_cases hi : i < 200
    · have hj : ¬ j < 200 := fun h => hA ⟨hi, h⟩
      obtain ⟨r, hr⟩ : ∃ r, cell.heights[i]? = some r := by
        rw [List.getElem?_eq_getElem (by omega)]
        exact ⟨_, rfl⟩
      rw [hr, Option.some_bind,
        List.getElem?_eq_none (by rw [hW r (List.getElem?_mem hr)]; omega)]
    · rw [List.getElem?_eq_none (by omega), Option.none_bind]

/-- Geometry resolution for the two-tile configuration of the adjacency
test: corners (0, 0) and (10000, 0) give a 400 by 200 output raster. -/
theorem getDimensions_pair (A B : HeightCell) (hAx : A.xcorner = 0) (hAy : A.ycorner = 0)
    (hBx : B.xcorner = 10000) (hBy : B.ycorner = 0) :
    getDimensions [A, B] = .ok ⟨10000, 200, 2, 400, 200, 0, 0, 10000⟩ := by
  unfold getDimensions
  rw [List.map_cons, List.map_cons, List.map_nil, List.map_cons, List.map_cons, List.map_nil,
    hAx, hAy, hBx, hBy]
  rw [show npMax [(0 : ℚ), 10000] = .ok 10000 by unfold npMax List.max?; norm_num [List.foldl]]
  rw [show npMax [(0 : ℚ), 0] = .ok 0 by unfold npMax List.max?; norm_num [List.foldl]]
  rw [show npMin [(0 : ℚ), 10000] = .ok 0 by unfold npMin List.min?; norm_num [List.foldl]]
  rw [show npMin [(0 : ℚ), 0] = .ok 0 by unfold npMin List.min?; norm_num [List.foldl]]
  show Except.ok _ = _
  rw [Except.ok.injEq, Dimensions.mk.injEq]
  norm_num

/-- In the adjacency test the left tile starts at column 0, row 0. -/
theorem cellStart_pairA (A : HeightCell) (hAx : A.xcorner = 0) (hAy : A.ycorner = 0) :
    cellStart ⟨10000, 200, 2, 400, 200, 0, 0, 10000⟩ A = (0, 0) := by
  unfold cellStart pyInt
  rw [hAx, hAy]
  norm_num

/-- In the adjacency test the right tile starts at column 200, row 0. -/
theorem cellStart_pairB (B : HeightCell) (hBx : B.xcorner = 10000) (hBy : B.ycorner = 0) :
    cellStart ⟨10000, 200, 2, 400, 200, 0, 0, 10000⟩ B = (200, 0) := by
  unfold cellStart pyInt
  rw [hBx, hBy]
  norm_num

/-- Compositing the two adjacent 200 by 200 tiles: the left tile occupies
columns 0 to 199 and the right tile columns 200 to 399 of every row. -/
theorem combineCells_pair (A B : HeightCell)
    (hAx : A.xcorner = 0) (hAy : A.ycorner = 0) (hBx : B.xcorner = 10000) (hBy : B.ycorner = 0)
    (hAH : A.heights.length = 200) (hAW : ∀ r ∈ A.heights, r.length = 200)
    (hBH : B.heights.length = 200) (hBW : ∀ r ∈ B.heights, r.length = 200) :
    ∃ raster, combineCells [A, B] = .ok raster ∧ raster.length = 200 ∧
      UniformWidth 400 raster ∧
      ∀ i j : ℕ, i < 200 →
        (j < 200 → cellAt raster i j = cellAt A.heights i j) ∧
        (200 ≤ j → j < 400 → cellAt raster i j = cellAt B.heights i (j - 200)) := by
  have hinit_u : UniformWidth 400 (List.replicate 200 (List.replicate 400 (0:ℚ))) := by
    intro r hr
    rw [List.eq_of_mem_replicate hr, List.length_replicate]
  obtain ⟨m1, hw1, hlen1, hu1, hread1⟩ :=
    writeRows_ok A.heights 200 hAW (List.replicate 200 (List.replicate 400 (0:ℚ)))
      0 0 400 hinit_u (by rw [List.length_replicate]; omega) (by omega)
  obtain ⟨m2, hw2, hlen2, hu2, hread2⟩ :=
    writeRows_ok B.heights 200 hBW m1 0 200 400 hu1
      (by rw [hlen1, List.length_replicate]; omega) (by omega)
  refine ⟨m2, ?_, by rw [hlen2, hlen1, List.length_replicate], hu2, ?_⟩
  · unfold combineCells
    rw [getDimensions_pair A B hAx hAy hBx hBy]
    show (if (200:ℤ) < 0 ∨ (400:ℤ) < 0 then Except.error PyErr.valueError
      else writeCells ⟨10000, 200, 2, 400, 200, 0, 0, 10000⟩
        (List.replicate (Int.toNat 200) (List.replicate (Int.toNat 400) 0)) [A, B])
      = Except.ok m2
    rw [if_neg (by norm_num)]
    rw [writeCells, cellStart_pairA A hAx hAy]
    show (do
      let m3 ← writeRows (List.replicate (Int.toNat 200) (List.replicate (Int.toNat 400) 0))
        (0:ℤ) (0:ℤ) A.heights
      writeCells ⟨10000, 200, 2, 400, 200, 0, 0, 10000⟩ m3 [B]) = Except.ok m2
    rw [show Int.toNat 200 = 200 from rfl, show Int.toNat 400 = 400 from rfl,
      show (0:ℤ) = ((0:ℕ):ℤ) by norm_num, hw1]
    show writeCells ⟨10000, 200, 2, 400, 200, 0, 0, 10000⟩ m1 [B] = Except.ok m2
    rw [writeCells, cellStart_pairB B hBx hBy]
    show (do
      let m3 ← writeRows m1 (0:ℤ) (200:ℤ) B.heights
      writeCells ⟨10000, 200, 2, 400, 200, 0, 0, 10000⟩ m3 []) = Except.ok m2
    rw [show (0:ℤ) = ((0:ℕ):ℤ) by norm_num, show (200:ℤ) = ((200:ℕ):ℤ) by norm_num, hw2]
    rfl
  · intro i j hi
    constructor
    · intro hj
      rw [hread2 i j, if_neg (by omega), hread1 i j, if_pos (by omega)]
      norm_num
    · intro hj1 hj2
      rw [hread2 i j, if_pos (by omega)]
      norm_num

/-- Minimum of a nonempty constant list. -/
theorem min?_of_const {l : List ℚ} {c : ℚ} (hne : l ≠ []) (hall : ∀ v ∈ l, v = c) :
    l.min? = some c := by
  rcases List.exists_mem_of_ne_nil l hne with ⟨x, hx⟩
  have hxc : x = c := hall x hx
  subst hxc
  exact rat_min?_eq_some.2 ⟨hx, fun b hb => le_of_eq (hall x hx ▸ (hall b hb).symm)⟩

/-- Maximum of a nonempty constant list. -/
theorem max?_of_const {l : List ℚ} {c : ℚ} (hne : l ≠ []) (hall : ∀ v ∈ l, v = c) :
    l.max? = some c := by
  rcases List.exists_mem_of_ne_nil l hne with ⟨x, hx⟩
  have hxc : x = c := hall x hx
  subst hxc
  exact rat_max?_eq_some.2 ⟨hx, fun b hb => le_of_eq (hall x hx ▸ (hall b hb))⟩

/-- Unfolding of the shift step when the minimum is negative. -/
theorem shiftHeights_neg {m : List (List ℚ)} {mn : ℚ}
    (hmn : m.flatten.min? = some mn) (hneg : mn < 0) :
    shiftHeights m = .ok (m.map (List.map (fun h => h - mn))) := by
  unfold shiftHeights npMin
  rw [hmn]
  show (if mn < 0 then _ else _) = _
  rw [if_pos hneg]

/-- Unfolding of the shift step when the minimum is nonnegative. -/
theorem shiftHeights_nonneg {m : List (List ℚ)} {mn : ℚ}
    (hmn : m.flatten.min? = some mn) (hnn : ¬ mn < 0) :
    shiftHeights m = .ok m := by
  unfold shiftHeights npMin
  rw [hmn]
  show (if mn < 0 then _ else _) = _
  rw [if_neg hnn]

/-- The normalizer on a raster whose minimum is nonpositive and strictly
below its maximum: it succeeds, every cell holding the minimum comes out
as 0 and every cell holding the maximum comes out as 255. -/
theorem scaleHeightData_minmax (m : List (List ℚ)) (mn mx : ℚ)
    (hmn : m.flatten.min? = some mn) (hmx : m.flatten.max? = some mx)
    (hle : mn ≤ 0) (hlt : mn < mx) :
    ∃ out, scaleHeightData m = .ok out ∧
      (∀ i j : ℕ, cellAt m i j = some mn → cellAt out i j = some 0) ∧
      (∀ i j : ℕ, cellAt m i j = some mx → cellAt out i j = some 255) := by
  by_cases hneg : mn < 0
  · have hs := shiftHeights_neg hmn hneg
    have hflat : (m.map (List.map (fun h => h - mn))).flatten
        = m.flatten.map (fun h => h - mn) := (List.map_flatten _ m).symm
    have hmax2 : (m.map (List.map (fun h => h - mn))).flatten.max? = some (mx - mn) := by
      rw [hflat]
      exact max?_map_shift mn hmx
    have hd : mx - mn ≠ 0 := by linarith
    refine ⟨(m.map (List.map (fun h => h - mn))).map
      (List.map (fun h => h * (255 / (mx - mn)))), ?_, ?_, ?_⟩
    · unfold scaleHeightData
      rw [hs]
      show (do
        let mx2 ← npMax (m.map (List.map (fun h => h - mn))).flatten
        if mx2 = 0 then Except.error PyErr.nonFinite
        else Except.ok ((m.map (List.map (fun h => h - mn))).map
          (List.map (fun h => h * (255 / mx2))))) = _
      unfold npMax
      rw [hmax2]
      show (if mx - mn = 0 then _ else _) = _
      rw [if_neg hd]
    · intro i j hij
      rw [cellAt_map, cellAt_map, hij]
      simp only [Option.map_map, Option.map_some', Function.comp_apply]
      norm_num
    · intro i j hij
      rw [cellAt_map, cellAt_map, hij]
      simp only [Option.map_map, Option.map_some', Function.comp_apply]
      rw [Option.some.injEq]
      field_simp
  · have hmn0 : mn = 0 := le_antisymm hle (not_lt.1 hneg)
    have hs := shiftHeights_nonneg hmn hneg
    have hd : mx ≠ 0 := by rw [hmn0] at hlt; linarith
    refine ⟨m.map (List.map (fun h => h * (255 / mx))), ?_, ?_, ?_⟩
    · unfold scaleHeightData
      rw [hs]
      show (do
        let mx2 ← npMax m.flatten
        if mx2 = 0 then Except.error PyErr.nonFinite
        else Except.ok (m.map (List.map (fun h => h * (255 / mx2))))) = _
      unfold npMax
      rw [hmx]
      show (if mx = 0 then _ else _) = _
      rw [if_neg hd]
    · intro i j hij
      rw [cellAt_map, hij, hmn0]
      simp only [Option.map_some']
      norm_num
    · intro i j hij
      rw [cellAt_map, hij]
      simp only [Option.map_some']
      rw [Option.some.injEq]
      field_simp

/-- The normalizer on a nonempty all-equal raster: a positive constant
raster is rescaled to the constant 255 raster, a nonpositive constant
raster produces non-finite values. -/
theorem scaleHeightData_const (m : List (List ℚ)) (c : ℚ) (hne : m.flatten ≠ [])
    (hall : ∀ v ∈ m.flatten, v = c) :
    (0 < c → scaleHeightData m = .ok (m.map (List.map (fun _ => (255:ℚ))))) ∧
    (c ≤ 0 → scaleHeightData m = .error .nonFinite) := by
  have hmin : m.flatten.min? = some c := min?_of_const hne hall
  have hmax : m.flatten.max? = some c := max?_of_const hne hall
  constructor
  · intro hc
    have hs := shiftHeights_nonneg hmin (by linarith)
    unfold scaleHeightData
    rw [hs]
    show (do
      let mx2 ← npMax m.flatten
      if mx2 = 0 then Except.error PyErr.nonFinite
      else Except.ok (m.map (List.map (fun h => h * (255 / mx2))))) = _
    unfold npMax
    rw [hmax]
    show (if c = 0 then _ else _) = _
    rw [if_neg (by linarith), Except.ok.injEq]
    apply List.map_congr_left
    intro row hrow
    apply List.map_congr_left
    intro v hv
    have hvc : v = c := hall v (List.mem_flatten.2 ⟨row, hrow, hv⟩)
    rw [hvc]
    field_simp
  · intro hc
    by_cases hneg : c < 0
    · have hs := shiftHeights_neg hmin hneg
      have hflat : (m.map (List.map (fun h => h - c))).flatten
          = m.flatten.map (fun h => h - c) := (List.map_flatten _ m).symm
      have hmax2 : (m.map (List.map (fun h => h - c))).flatten.max? = some (c - c) := by
        rw [hflat]
        exact max?_map_shift c hmax
      unfold scaleHeightData
      rw [hs]
      show (do
        let mx2 ← npMax (m.map (List.map (fun h => h - c))).flatten
        if mx2 = 0 then Except.error PyErr.nonFinite
        else Except.ok ((m.map (List.map (fun h => h - c))).map
          (List.map (fun h => h * (255 / mx2))))) = _
      unfold npMax
      rw [hmax2]
      show (if c - c = 0 then _ else _) = _
      rw [if_pos (by ring)]
    · have hc0 : c = 0 := le_antisymm hc (not_lt.1 hneg)
      have hs := shiftHeights_nonneg hmin hneg
      unfold scaleHeightData
      rw [hs]
      show (do
        let mx2 ← npMax m.flatten
        if mx2 = 0 then Except.error PyErr.nonFinite
        else Except.ok (m.map (List.map (fun h => h * (255 / mx2))))) = _
      unfold npMax
      rw [hmax]
      show (if c = 0 then _ else _) = _
      rw [if_pos hc0]

/-- Unfolding of the scale step once the shift result and its maximum are
known and the maximum is nonzero. -/
theorem scaleHeightData_of_shift {m s : List (List ℚ)} {mx : ℚ}
    (hs : shiftHeights m = .ok s) (hmx : s.flatten.max? = some mx) (hne : mx ≠ 0) :
    scaleHeightData m = .ok (s.map (List.map (fun h => h * (255 / mx)))) := by
  unfold scaleHeightData
  rw [hs]
  show (do
    let mx2 ← npMax s.flatten
    if mx2 = 0 then Except.error PyErr.nonFinite
    else Except.ok (s.map (List.map (fun h => h * (255 / mx2))))) = _
  unfold npMax
  rw [hmx]
  show (if mx = 0 then _ else _) = _
  rw [if_neg hne]

/-- A tile with an empty exclude list has exactly its flattened heights as
valid values. -/
theorem validValues_of_exclude_nil (cell : HeightCell) (hex : cell.exclude = []) :
    cell.validValues = cell.heights.flatten := by
  unfold HeightCell.validValues HeightCell.flattened
  rw [hex]
  rw [show (fun h : ℚ => if h ∈ ([] : List ℚ) then none else some h) = some by
    funext h; simp]
  rw [List.filterMap_map]
  simp

/-- A data line of numeric tokens parses to a float list of the same
length. -/
theorem parseFloats_ok (l : List Token) (hnum : ∀ t ∈ l, (Token.toFloat t).isSome) :
    ∃ qs, parseFloats l = .ok qs ∧ qs.length = l.length := by
  induction l with
  | nil => exact ⟨[], rfl, rfl⟩
  | cons t ts ih =>
    obtain ⟨q, hq⟩ := Option.isSome_iff_exists.1 (hnum t (List.mem_cons_self t ts))
    obtain ⟨qs, hqs, hlen⟩ := ih (fun t2 ht2 => hnum t2 (List.mem_cons_of_mem _ ht2))
    refine ⟨q :: qs, ?_, by rw [List.length_cons, List.length_cons, hlen]⟩
    rw [parseFloats, hq]
    show (do
      let qs2 ← parseFloats ts
      Except.ok (q :: qs2)) = _
    rw [hqs]
    rfl

/-- A block of data lines of numeric tokens parses to a block of float
rows of the same lengths. -/
theorem parseRows_ok (ls : List (List Token))
    (hnum : ∀ l ∈ ls, ∀ t ∈ l, (Token.toFloat t).isSome) :
    ∃ hs, parseRows ls = .ok hs ∧ hs.length = ls.length ∧
      ∀ i : ℕ, (hs[i]?).map List.length = (ls[i]?).map List.length := by
  induction ls with
  | nil => exact ⟨[], rfl, rfl, fun i => rfl⟩
  | cons l ls2 ih =>
    obtain ⟨q, hq, hqlen⟩ := parseFloats_ok l (hnum l (List.mem_cons_self l ls2))
    obtain ⟨hs, hhs, hlen, hptw⟩ := ih (fun l2 hl2 => hnum l2 (List.mem_cons_of_mem _ hl2))
    refine ⟨q :: hs, ?_, by rw [List.length_cons, List.length_cons, hlen], ?_⟩
    · rw [parseRows, hq]
      show (do
        let rs ← parseRows ls2
        Except.ok (q :: rs)) = _
      rw [hhs]
      rfl
    · intro i
      cases i with
      | zero => rw [List.getElem?_cons_zero, List.getElem?_cons_zero]
                simp [hqlen]
      | succ k => rw [List.getElem?_cons_succ, List.getElem?_cons_succ]
                  exact hptw k

/-- Full success characterization of importAsc: five header lines whose
last tokens are integers, followed by any block of all-numeric data lines
holding at least one value, produce a HeightCell carrying the five header
values and the parsed rows at their own lengths. -/
theorem importAsc_ok (h1 h2 h3 h4 h5 : List Token) (c r xc yc cs : ℤ)
    (dataLines : List (List Token))
    (e1 : h1.getLast? = some (.intTok c)) (e2 : h2.getLast? = some (.intTok r))
    (e3 : h3.getLast? = some (.intTok xc)) (e4 : h4.getLast? = some (.intTok yc))
    (e5 : h5.getLast? = some (.intTok cs))
    (hnum : ∀ l ∈ dataLines, ∀ t ∈ l, (Token.toFloat t).isSome)
    (hne : dataLines.flatten ≠ []) :
    ∃ hs, parseRows dataLines = .ok hs ∧ hs.length = dataLines.length ∧
      (∀ i : ℕ, (hs[i]?).map List.length = (dataLines[i]?).map List.length) ∧
      importAsc (h1 :: h2 :: h3 :: h4 :: h5 :: dataLines)
        = .ok ⟨c, r, (xc : ℚ), (yc : ℚ), (cs : ℚ), hs, []⟩ := by
  obtain ⟨hs, hrows, hlen, hptw⟩ := parseRows_ok dataLines hnum
  have hsne : hs.flatten ≠ [] := by
    intro hflat
    apply hne
    rw [List.flatten_eq_nil_iff] at hflat ⊢
    intro l hl
    obtain ⟨i, hi⟩ := List.mem_iff_getElem?.1 hl
    have hmap := hptw i
    rw [hi, Option.map_some'] at hmap
    obtain ⟨q, hq, hqlen⟩ := Option.map_eq_some'.1 hmap
    have hq0 : q = [] := hflat q (List.getElem?_mem hq)
    rw [hq0, List.length_nil] at hqlen
    exact List.eq_nil_of_length_eq_zero hqlen.symm
  refine ⟨hs, hrows, hlen, hptw, ?_⟩
  unfold importAsc
  rw [show (h1 :: h2 :: h3 :: h4 :: h5 :: dataLines).take 5 = [h1, h2, h3, h4, h5] from rfl,
    show (h1 :: h2 :: h3 :: h4 :: h5 :: dataLines).drop 5 = dataLines from rfl]
  have hh : parseHeaders [h1, h2, h3, h4, h5] = .ok [c, r, xc, yc, cs] := by
    simp only [parseHeaders, parseHeaderLine, e1, e2, e3, e4, e5, Token.toInt]
    rfl
  rw [hh]
  show (do
    let heights ← parseRows dataLines
    mkHeightCell c r (xc : ℚ) (yc : ℚ) (cs : ℚ) heights []) = _
  rw [hrows]
  show mkHeightCell c r (xc : ℚ) (yc : ℚ) (cs : ℚ) hs [] = _
  unfold mkHeightCell
  rw [if_neg (by rw [validValues_of_exclude_nil ⟨c, r, _, _, _, hs, []⟩ rfl]; exact hsne)]

/-- Claim C7, corrected: on an empty tile list the geometry resolver does
fail, but with the uncategorized builtin ValueError that Python max raises
on an empty sequence; no EmptyTileSetError class exists in the source. -/
theorem claimC7 : getDimensions ([] : List HeightCell) = .error PyErr.valueError := by
  decide

/-- Counterexample to claim C7 as stated: on zero tiles the resolver fails
with the uncategorized ValueError, not with an EmptyTileSetError. -/
theorem claimC7_cex : getDimensions ([] : List HeightCell) ≠ .error PyErr.emptyTileSetError ∧
    getDimensions ([] : List HeightCell) = .error PyErr.valueError := by
  decide

/-- Claim C5, corrected: for valid tile text WITHOUT the optional
nodata_value header line — five header lines whose last tokens parse as
integers with ncols = c and nrows = r (both at least 1), followed by
exactly r data rows of exactly c numeric tokens — the parser produces a
tile with columns c, rows r and a value array of exactly r rows of c
floats.  The claimed format variant with a nodata_value line is refuted by
the counterexample: the source treats every line after the fifth as a data
row, so the variant line makes float() fail on its key token. -/
theorem claimC5 (h1 h2 h3 h4 h5 : List Token) (c r xc yc cs : ℤ)
    (dataLines : List (List Token))
    (e1 : h1.getLast? = some (.intTok c)) (e2 : h2.getLast? = some (.intTok r))
    (e3 : h3.getLast? = some (.intTok xc)) (e4 : h4.getLast? = some (.intTok yc))
    (e5 : h5.getLast? = some (.intTok cs))
    (hrcount : dataLines.length = r.toNat)
    (hrows : ∀ l ∈ dataLines, l.length = c.toNat ∧ ∀ t ∈ l, (Token.toFloat t).isSome)
    (hr1 : 1 ≤ r) (hc1 : 1 ≤ c) :
    ∃ cell, importAsc (h1 :: h2 :: h3 :: h4 :: h5 :: dataLines) = .ok cell ∧
      cell.xsize = c ∧ cell.ysize = r ∧ cell.heights.length = r.toNat ∧
      ∀ row ∈ cell.heights, row.length = c.toNat := by
  have hnum : ∀ l ∈ dataLines, ∀ t ∈ l, (Token.toFloat t).isSome :=
    fun l hl => (hrows l hl).2
  have hne : dataLines.flatten ≠ [] := by
    rw [Ne, List.flatten_eq_nil_iff]
    intro hall
    rcases dataLines with _ | ⟨l, rest⟩
    · rw [List.length_nil] at hrcount
      omega
    · have h0 := hall l (List.mem_cons_self l rest)
      have hlw := (hrows l (List.mem_cons_self l rest)).1
      rw [h0, List.length_nil] at hlw
      omega
  obtain ⟨hs, _, hslen, hptw, himp⟩ :=
    importAsc_ok h1 h2 h3 h4 h5 c r xc yc cs dataLines e1 e2 e3 e4 e5 hnum hne
  refine ⟨_, himp, rfl, rfl, by rw [hslen, hrcount], ?_⟩
  intro row hrow
  obtain ⟨i, hi⟩ := List.mem_iff_getElem?.1 hrow
  have hmap := hptw i
  rw [hi, Option.map_some'] at hmap
  obtain ⟨l, hlg, hleq⟩ := Option.map_eq_some'.1 hmap.symm
  have hlw := (hrows l (List.getElem?_mem hlg)).1
  omega

/-- Witness for claim C5: the two-column one-row tile text parses to a
tile of the declared shape. -/
theorem claimC5_witness :
    ∃ cell, importAsc linesC5wit = .ok cell ∧
      cell.xsize = 2 ∧ cell.ysize = 1 ∧ cell.heights.length = 1 ∧
      ∀ row ∈ cell.heights, row.length = 2 := by
  have h := claimC5 [.wordTok, .intTok 2] [.wordTok, .intTok 1] [.wordTok, .intTok 0]
    [.wordTok, .intTok 0] [.wordTok, .intTok 10000] 2 1 0 0 10000
    [[.intTok 1, .intTok 2]] rfl rfl rfl rfl rfl rfl (by decide) (by norm_num) (by norm_num)
  exact h

/-- Counterexample to claim C5 as stated: the same valid tile text with the
optional nodata_value line inserted after the five header lines makes the
parser fail with a ValueError instead of producing a tile, while the text
without that line parses. -/
theorem claimC5_cex :
    importAsc linesC5var = .error PyErr.valueError ∧
    importAsc linesC5wit = .ok ⟨2, 1, 0, 0, 10000, [[1, 2]], []⟩ ∧
    linesC5var = linesC5wit.take 5 ++ [[.wordTok, .floatTok (-9/10)]] ++ linesC5wit.drop 5 := by
  refine ⟨rfl, by decide, rfl⟩

/-- Claim C6, corrected: the parser performs no row-length validation at
all.  Whenever the five header lines parse and every data-row token is
numeric (with at least one data value present), importAsc succeeds and
stores each row at its own length, whether or not that length equals
ncols; no RowLengthError class exists in the source. -/
theorem claimC6 (h1 h2 h3 h4 h5 : List Token) (c r xc yc cs : ℤ)
    (dataLines : List (List Token))
    (e1 : h1.getLast? = some (.intTok c)) (e2 : h2.getLast? = some (.intTok r))
    (e3 : h3.getLast? = some (.intTok xc)) (e4 : h4.getLast? = some (.intTok yc))
    (e5 : h5.getLast? = some (.intTok cs))
    (hnum : ∀ l ∈ dataLines, ∀ t ∈ l, (Token.toFloat t).isSome)
    (hne : dataLines.flatten ≠ []) :
    ∃ cell, importAsc (h1 :: h2 :: h3 :: h4 :: h5 :: dataLines) = .ok cell ∧
      cell.heights.length = dataLines.length ∧
      (∀ i : ℕ, (cell.heights[i]?).map List.length = (dataLines[i]?).map List.length) ∧
      importAsc (h1 :: h2 :: h3 :: h4 :: h5 :: dataLines) ≠ .error PyErr.rowLengthError := by
  obtain ⟨hs, _, hslen, hptw, himp⟩ :=
    importAsc_ok h1 h2 h3 h4 h5 c r xc yc cs dataLines e1 e2 e3 e4 e5 hnum hne
  refine ⟨_, himp, hslen, hptw, ?_⟩
  rw [himp]
  intro hcontra
  exact Except.noConfusion hcontra

/-- Witness for claim C6: tile text declaring ncols 3 and nrows 2 whose
data rows hold one and two numeric tokens parses anyway, keeping the raw
row lengths. -/
theorem claimC6_witness :
    ∃ cell, importAsc linesC6wit = .ok cell ∧
      cell.heights.length = 2 ∧
      (∀ i : ℕ, (cell.heights[i]?).map List.length
        = (([[.intTok 7], [.intTok 1, .floatTok (mkRat 1 2)]] : List (List Token))[i]?).map
            List.length) ∧
      importAsc linesC6wit ≠ .error PyErr.rowLengthError := by
  have h := claimC6 [.wordTok, .intTok 3] [.wordTok, .intTok 2] [.wordTok, .intTok 0]
    [.wordTok, .intTok 0] [.wordTok, .intTok 10000] 3 2 0 0 10000
    [[.intTok 7], [.intTok 1, .floatTok (mkRat 1 2)]] rfl rfl rfl rfl rfl
    (by decide) (by decide)
  exact h

/-- Counterexample to claim C6 as stated: tile text with ncols 2 whose
single data row has only one numeric token is parsed to a tile (with the
short row stored as is) instead of failing with a RowLengthError. -/
theorem claimC6_cex :
    importAsc linesC6cex = .ok ⟨2, 1, 0, 0, 10000, [[7]], []⟩ ∧
    importAsc linesC6cex ≠ .error PyErr.rowLengthError := by
  decide

/-- Claim C8, confirmed: the normalizer on the raster [-10, 0, 10] first
shifts the values to [0, 10, 20] and then scales them to exactly
[0, 127.5, 255] (127.5 written as 255/2). -/
theorem claimC8 :
    shiftHeights [[-10, 0, 10]] = .ok [[0, 10, 20]] ∧
    scaleHeightData [[-10, 0, 10]] = .ok [[0, 255/2, 255]] := by
  have hmin : ([[-10, 0, 10]] : List (List ℚ)).flatten.min? = some (-10) := by
    apply rat_min?_eq_some.2
    constructor
    · simp
    · intro b hb
      simp at hb
      rcases hb with h | h | h <;> rw [h] <;> norm_num
  have hshift : shiftHeights [[-10, 0, 10]]
      = .ok (([[-10, 0, 10]] : List (List ℚ)).map (List.map (fun h => h - (-10)))) :=
    shiftHeights_neg hmin (by norm_num)
  have hlist : ([[-10, 0, 10]] : List (List ℚ)).map (List.map (fun h => h - (-10)))
      = [[0, 10, 20]] := by
    simp only [List.map_cons, List.map_nil]
    norm_num
  have hmax2 : ([[0, 10, 20]] : List (List ℚ)).flatten.max? = some 20 := by
    apply rat_max?_eq_some.2
    constructor
    · simp
    · intro b hb
      simp at hb
      rcases hb with h | h | h <;> rw [h] <;> norm_num
  constructor
  · rw [hshift, hlist]
  · have hsc := scaleHeightData_of_shift (m := [[-10, 0, 10]]) (s := [[0, 10, 20]])
      (by rw [hshift, hlist]) hmax2 (by norm_num)
    rw [hsc, Except.ok.injEq]
    simp only [List.map_cons, List.map_nil]
    norm_num

/-- Claim C2, corrected: on a nonempty all-equal raster the normalizer
never raises; for a positive constant (such as the claimed all-5.0 raster)
it returns the all-255 raster, and for a nonpositive constant it divides
by zero and propagates non-finite values.  No DegenerateRangeError class
exists in the source. -/
theorem claimC2 (m : List (List ℚ)) (c : ℚ) (hne : m.flatten ≠ [])
    (hall : ∀ v ∈ m.flatten, v = c) :
    (0 < c → scaleHeightData m = .ok (m.map (List.map (fun _ => (255:ℚ))))) ∧
    (c ≤ 0 → scaleHeightData m = .error PyErr.nonFinite) :=
  scaleHeightData_const m c hne hall

/-- Witness for claim C2: the all-5 raster is rescaled to the all-255
raster. -/
theorem claimC2_witness :
    scaleHeightData [[5, 5]] = .ok [[255, 255]] ∧ (0:ℚ) < 5 := by
  refine ⟨?_, by norm_num⟩
  have h := (claimC2 [[5, 5]] 5 (by simp) (by intro v hv; simpa using hv)).1 (by norm_num)
  exact h

/-- Counterexample to claim C2 as stated: on the raster with every value
5.0 the normalizer returns a result (the all-255 raster) instead of
failing with a DegenerateRangeError. -/
theorem claimC2_cex :
    scaleHeightData [[5, 5]] = .ok [[255, 255]] ∧
    scaleHeightData [[5, 5]] ≠ .error PyErr.degenerateRangeError := by
  have h := (scaleHeightData_const [[5, 5]] 5 (by simp)
    (by intro v hv; simpa using hv)).1 (by norm_num)
  refine ⟨h, ?_⟩
  rw [show scaleHeightData [[5, 5]] = .ok [[255, 255]] from h]
  intro hcontra
  exact Except.noConfusion hcontra

/-- Claim C9, confirmed: applying the nodata policy with exclude set
containing only -0.9 marks as missing exactly the cells equal to -0.9 and
keeps every other value unchanged, and an empty exclude set marks no cell
missing. -/
theorem claimC9 (c1 c2 : HeightCell) (hex1 : c1.exclude = [-9/10]) (hex2 : c2.exclude = []) :
    c1.flattened = c1.heights.flatten.map (fun h => if h = -9/10 then none else some h) ∧
    c2.flattened = c2.heights.flatten.map some := by
  constructor
  · unfold HeightCell.flattened
    rw [hex1]
    rw [show (fun h : ℚ => if h ∈ [(-9/10 : ℚ)] then none else some h)
        = (fun h : ℚ => if h = -9/10 then none else some h) by
      funext h
      simp [List.mem_singleton]]
  · unfold HeightCell.flattened
    rw [hex2]
    rw [show (fun h : ℚ => if h ∈ ([] : List ℚ) then none else some h) = some by
      funext h
      simp]

/-- Witness for claim C9: a concrete tile holding the sentinel -0.9 and
the value 7, once with the exclude set containing -0.9 and once with the
empty exclude set. -/
theorem claimC9_witness :
    cellC9a.flattened
      = cellC9a.heights.flatten.map (fun h => if h = -9/10 then none else some h) ∧
    cellC9b.flattened = cellC9b.heights.flatten.map some :=
  claimC9 cellC9a cellC9b rfl rfl

/-- Claim C3, corrected: the compositor of the source iterates over the raw
cell.heights rows, not over the nodata-masked view, so for every tile
whose value block fits in the 200 by 200 single-tile raster, every cell —
missing or not — is written to the composite as its raw numeric value; the
missing marker is never propagated.  The exclude list of the tile is
deliberately unconstrained here. -/
theorem claimC3 (cell : HeightCell) (H W : ℕ)
    (hH : cell.heights.length = H) (hW : ∀ r ∈ cell.heights, r.length = W)
    (hH2 : H ≤ 200) (hW2 : W ≤ 200) (i j : ℕ) (hi : i < H) (hj : j < W) :
    compositeAt [cell] i j = cellAt cell.heights i j := by
  obtain ⟨raster, hc, _, _, hread⟩ := combineCells_single cell H W hH hW hH2 hW2
  unfold compositeAt
  rw [hc]
  show cellAt raster i j = _
  rw [hread i j, if_pos ⟨hi, hj⟩]

/-- Witness for claim C3: a tile whose first value is its excluded
sentinel -0.9 still has its raw values written to the composite. -/
theorem claimC3_witness :
    compositeAt [tileC3wit] 0 0 = cellAt tileC3wit.heights 0 0 :=
  claimC3 tileC3wit 1 2 rfl (by intro r hr; simp [tileC3wit] at hr; rw [hr]; rfl)
    (by norm_num) (by norm_num) 0 0 (by norm_num) (by norm_num)

/-- Counterexample to claim C3 as stated: the one-cell tile whose single
value -0.9 is marked missing by the nodata policy (its flattened view is
[none]) nevertheless yields a composite holding the raw sentinel number
-0.9 — not a missing marker and not zero — at position (0, 0). -/
theorem claimC3_cex :
    tileC3cex.flattened = [none] ∧
    compositeAt [tileC3cex] 0 0 = some (-9/10) ∧ (-9/10 : ℚ) ≠ 0 := by
  refine ⟨?_, ?_, by norm_num⟩
  · simp [tileC3cex, HeightCell.flattened]
  · obtain ⟨raster, hc, _, _, hread⟩ := combineCells_single tileC3cex 1 1 rfl
      (by intro r hr; simp [tileC3cex] at hr; rw [hr]; rfl) (by norm_num) (by norm_num)
    unfold compositeAt
    rw [hc]
    show cellAt raster 0 0 = _
    rw [hread 0 0, if_pos (by norm_num)]
    rfl

/-- Claim C4, confirmed: for tile A at corner (0, 0) and tile B at corner
(10000, 0), both carrying 200 by 200 values, the resolved geometry is a
400 by 200 raster and compositing places the values of A in columns 0-199
and those of B in columns 200-399 of every row. -/
theorem claimC4 (A B : HeightCell)
    (hAx : A.xcorner = 0) (hAy : A.ycorner = 0) (hBx : B.xcorner = 10000) (hBy : B.ycorner = 0)
    (hAH : A.heights.length = 200) (hAW : ∀ r ∈ A.heights, r.length = 200)
    (hBH : B.heights.length = 200) (hBW : ∀ r ∈ B.heights, r.length = 200) :
    ∃ dims raster, getDimensions [A, B] = .ok dims ∧
      dims.img_width = 400 ∧ dims.img_height = 200 ∧
      combineCells [A, B] = .ok raster ∧ raster.length = 200 ∧
      ∀ i j : ℕ, i < 200 →
        (j < 200 → cellAt raster i j = cellAt A.heights i j) ∧
        (200 ≤ j → j < 400 → cellAt raster i j = cellAt B.heights i (j - 200)) := by
  obtain ⟨raster, hc, hlen, _, hread⟩ := combineCells_pair A B hAx hAy hBx hBy hAH hAW hBH hBW
  exact ⟨_, raster, getDimensions_pair A B hAx hAy hBx hBy, rfl, rfl, hc, hlen, hread⟩

/-- Witness for claim C4: the all-ones and all-twos 200 by 200 tiles at
corners (0, 0) and (10000, 0). -/
theorem claimC4_witness :
    ∃ dims raster, getDimensions [tileC4A, tileC4B] = .ok dims ∧
      dims.img_width = 400 ∧ dims.img_height = 200 ∧
      combineCells [tileC4A, tileC4B] = .ok raster ∧ raster.length = 200 ∧
      ∀ i j : ℕ, i < 200 →
        (j < 200 → cellAt raster i j = cellAt tileC4A.heights i j) ∧
        (200 ≤ j → j < 400 → cellAt raster i j = cellAt tileC4B.heights i (j - 200)) :=
  claimC4 tileC4A tileC4B rfl rfl rfl rfl
    (by rw [show tileC4A.heights = List.replicate 200 (List.replicate 200 (1:ℚ)) from rfl,
      List.length_replicate])
    (by
      intro r hr
      rw [show tileC4A.heights = List.replicate 200 (List.replicate 200 (1:ℚ)) from rfl] at hr
      rw [List.eq_of_mem_replicate hr, List.length_replicate])
    (by rw [show tileC4B.heights = List.replicate 200 (List.replicate 200 (2:ℚ)) from rfl,
      List.length_replicate])
    (by
      intro r hr
      rw [show tileC4B.heights = List.replicate 200 (List.replicate 200 (2:ℚ)) from rfl] at hr
      rw [List.eq_of_mem_replicate hr, List.length_replicate])

/-- Claim C1, corrected: compositing a single tile alone and normalizing
maps the cells holding the tile minimum to intensity 0 and those holding
the tile maximum to intensity 255 PROVIDED the tile value block is exactly
the 200 by 200 extent the fixed geometry assumes, the tile minimum is
nonpositive and the tile is not flat.  The original claim said this held
regardless of the sign of the minimum; the counterexample shows a tile
with positive minimum maps its minimum to 127.5 instead of 0, because the
source only shifts when the minimum is negative. -/
theorem claimC1 (cell : HeightCell) (mn mx : ℚ) (hex : cell.exclude = [])
    (hH : cell.heights.length = 200) (hW : ∀ r ∈ cell.heights, r.length = 200)
    (hmin : cell.minVal = some mn) (hmax : cell.maxVal = some mx)
    (hle : mn ≤ 0) (hlt : mn < mx) :
    ∃ out, compositeAndScale [cell] = .ok out ∧
      (∀ i j : ℕ, cellAt cell.heights i j = some mn → cellAt out i j = some 0) ∧
      (∀ i j : ℕ, cellAt cell.heights i j = some mx → cellAt out i j = some 255) := by
  unfold HeightCell.minVal at hmin
  unfold HeightCell.maxVal at hmax
  rw [validValues_of_exclude_nil cell hex] at hmin hmax
  obtain ⟨out, hsc, h0, h255⟩ := scaleHeightData_minmax cell.heights mn mx hmin hmax hle hlt
  refine ⟨out, ?_, h0, h255⟩
  unfold compositeAndScale
  rw [combineCells_single_eq cell hH hW]
  exact hsc

/-- Witness for claim C1: a 200 by 200 tile of zeros with one -1, whose
minimum -1 is negative: the -1 cell maps to 0 and the 0 cells map to
255. -/
theorem claimC1_witness :
    ∃ out, compositeAndScale [tileC1wit] = .ok out ∧
      (∀ i j : ℕ, cellAt tileC1wit.heights i j = some (-1) → cellAt out i j = some 0) ∧
      (∀ i j : ℕ, cellAt tileC1wit.heights i j = some 0 → cellAt out i j = some 255) := by
  have hhw : tileC1wit.heights
      = ((-1) :: List.replicate 199 0) :: List.replicate 199 (List.replicate 200 (0:ℚ)) := rfl
  have hmem : ∀ b : ℚ, b ∈ tileC1wit.heights.flatten → b = -1 ∨ b = 0 := by
    intro b hb
    rw [hhw, List.flatten_cons] at hb
    rcases List.mem_append.1 hb with h | h
    · rcases List.mem_cons.1 h with h1 | h1
      · exact Or.inl h1
      · exact Or.inr (List.eq_of_mem_replicate h1)
    · obtain ⟨l, hl, hbl⟩ := List.mem_flatten.1 h
      rw [List.eq_of_mem_replicate hl] at hbl
      exact Or.inr (List.eq_of_mem_replicate hbl)
  apply claimC1 tileC1wit (-1) 0 rfl
  · rw [hhw, List.length_cons, List.length_replicate]
  · intro r hr
    rw [hhw] at hr
    rcases List.mem_cons.1 hr with h | h
    · rw [h, List.length_cons, List.length_replicate]
    · rw [List.eq_of_mem_replicate h, List.length_replicate]
  · unfold HeightCell.minVal
    rw [validValues_of_exclude_nil tileC1wit rfl]
    apply rat_min?_eq_some.2
    constructor
    · rw [hhw, List.flatten_cons]
      exact List.mem_append_left _ (List.mem_cons_self _ _)
    · intro b hb
      rcases hmem b hb with h | h <;> rw [h] <;> norm_num
  · unfold HeightCell.maxVal
    rw [validValues_of_exclude_nil tileC1wit rfl]
    apply rat_max?_eq_some.2
    constructor
    · rw [hhw, List.flatten_cons]
      exact List.mem_append_left _
        (List.mem_cons_of_mem _ (List.mem_replicate.2 ⟨by norm_num, rfl⟩))
    · intro b hb
      rcases hmem b hb with h | h <;> rw [h] <;> norm_num
  · norm_num
  · norm_num

/-- Counterexample to claim C1 as stated: a 200 by 200 tile of tens with a
single 20 has minimum 10, held at cell (0, 0); compositing it alone and
normalizing maps that cell to 127.5 (= 255/2), not 0, because the source
never shifts a positive minimum down to zero. -/
theorem claimC1_cex :
    tileC1cex.minVal = some 10 ∧ cellAt tileC1cex.heights 0 0 = some 10 ∧
    compositeScaleAt [tileC1cex] 0 0 = some (255 / 2) ∧ (255 / 2 : ℚ) ≠ 0 := by
  have hhw : tileC1cex.heights
      = (10 :: 20 :: List.replicate 198 10) :: List.replicate 199 (List.replicate 200 (10:ℚ))
      := rfl
  have hmem : ∀ b : ℚ, b ∈ tileC1cex.heights.flatten → b = 10 ∨ b = 20 := by
    intro b hb
    rw [hhw, List.flatten_cons] at hb
    rcases List.mem_append.1 hb with h | h
    · rcases List.mem_cons.1 h with h1 | h1
      · exact Or.inl h1
      · rcases List.mem_cons.1 h1 with h2 | h2
        · exact Or.inr h2
        · exact Or.inl (List.eq_of_mem_replicate h2)
    · obtain ⟨l, hl, hbl⟩ := List.mem_flatten.1 h
      rw [List.eq_of_mem_replicate hl] at hbl
      exact Or.inl (List.eq_of_mem_replicate hbl)
  have hminvv : tileC1cex.heights.flatten.min? = some 10 := by
    apply rat_min?_eq_some.2
    constructor
    · rw [hhw, List.flatten_cons]
      exact List.mem_append_left _ (List.mem_cons_self _ _)
    · intro b hb
      rcases hmem b hb with h | h <;> rw [h] <;> norm_num
  have hmaxvv : tileC1cex.heights.flatten.max? = some 20 := by
    apply rat_max?_eq_some.2
    constructor
    · rw [hhw, List.flatten_cons]
      exact List.mem_append_left _ (List.mem_cons_of_mem _ (List.mem_cons_self _ _))
    · intro b hb
      rcases hmem b hb with h | h <;> rw [h] <;> norm_num
  have hcell : cellAt tileC1cex.heights 0 0 = some 10 := by
    rw [hhw, cellAt_cons_zero, List.getElem?_cons_zero]
  refine ⟨?_, hcell, ?_, by norm_num⟩
  · unfold HeightCell.minVal
    rw [validValues_of_exclude_nil tileC1cex rfl]
    exact hminvv
  · have hcomb := combineCells_single_eq tileC1cex
      (by rw [hhw, List.length_cons, List.length_replicate])
      (by
        intro r hr
        rw [hhw] at hr
        rcases List.mem_cons.1 hr with h | h
        · rw [h, List.length_cons, List.length_cons, List.length_replicate]
        · rw [List.eq_of_mem_replicate h, List.length_replicate])
    have hs : shiftHeights tileC1cex.heights = .ok tileC1cex.heights :=
      shiftHeights_nonneg hminvv (by norm_num)
    have hsc := scaleHeightData_of_shift hs hmaxvv (by norm_num)
    unfold compositeScaleAt compositeAndScale
    rw [hcomb, except_ok_bind, hsc]
    rw [show Except.toOption
        (Except.ok (tileC1cex.heights.map (List.map (fun h => h * (255 / 20)))))
        = some (tileC1cex.heights.map (List.map (fun h => h * (255 / 20)))) from rfl]
    rw [Option.some_bind, cellAt_map, hcell, Option.map_some']
    rw [Option.some.injEq]
    norm_num

/-- A list map equality forces pointwise equality on zipped pairs. -/
theorem map_eq_on_zip {α β : Type} (f : α → β) :
    ∀ (l1 l2 : List α), l1.map f = l2.map f → ∀ p ∈ l1.zip l2, f p.1 = f p.2 := by
  intro l1
  induction l1 with
  | nil =>
    intro l2 h p hp
    simp at hp
  | cons a l1 ih =>
    intro l2 h p hp
    cases l2 with
    | nil => simp at hp
    | cons b l2 =>
      rw [List.map_cons, List.map_cons, List.cons.injEq] at h
      rw [List.zip_cons_cons] at hp
      rcases List.mem_cons.1 hp with rfl | hp2
      · exact h.1
      · exact ih l2 h.2 p hp2

/-- Every successful geometry resolution carries the fixed constants:
cell size 10000 metres and 200 measurements per cell side. -/
theorem getDimensions_constants {cells : List HeightCell} {d : Dimensions}
    (hd : getDimensions cells = .ok d) : d.cell_size = 10000 ∧ d.cell_side = 200 := by
  unfold getDimensions npMax npMin at hd
  repeat' split at hd
  all_goals first
    | exact Except.noConfusion hd
    | (obtain rfl := Except.ok.inj hd; exact ⟨rfl, by norm_num⟩)

/-- Claim C10, confirmed: the resolved geometry depends only on the tiles
corner coordinates.  Two nonempty tile lists with pointwise equal corners
— whatever their stored cell sizes or column and row counts — resolve to
the same dimensions, every resolution carries the fixed 10000-metre cell
with 200 measurements (50 metres each) per side, and every zipped pair of
tiles receives the same start column and start row. -/
theorem claimC10 (cs1 cs2 : List HeightCell) (_hne : cs1 ≠ [])
    (hx : cs1.map (fun c => c.xcorner) = cs2.map (fun c => c.xcorner))
    (hy : cs1.map (fun c => c.ycorner) = cs2.map (fun c => c.ycorner)) :
    getDimensions cs1 = getDimensions cs2 ∧
    (∀ d : Dimensions, getDimensions cs1 = .ok d → d.cell_size = 10000 ∧ d.cell_side = 200) ∧
    (∀ d : Dimensions, ∀ p ∈ cs1.zip cs2, cellStart d p.1 = cellStart d p.2) := by
  refine ⟨?_, ?_, ?_⟩
  · unfold getDimensions
    rw [hx, hy]
  · intro d hd
    exact getDimensions_constants hd
  · intro d p hp
    have hx1 : p.1.xcorner = p.2.xcorner := map_eq_on_zip (fun c => c.xcorner) cs1 cs2 hx p hp
    have hy1 : p.1.ycorner = p.2.ycorner := map_eq_on_zip (fun c => c.ycorner) cs1 cs2 hy p hp
    unfold cellStart
    rw [hx1, hy1]

/-- Witness for claim C10: two single-tile lists sharing corner (0, 0) and
value block, one declaring 200 columns and rows with cell size 10000, the
other declaring 100 with cell size 5000. -/
theorem claimC10_witness :
    getDimensions cellsC10a = getDimensions cellsC10b ∧
    (∀ d : Dimensions, getDimensions cellsC10a = .ok d →
      d.cell_size = 10000 ∧ d.cell_side = 200) ∧
    (∀ d : Dimensions, ∀ p ∈ cellsC10a.zip cellsC10b, cellStart d p.1 = cellStart d p.2) :=
  claimC10 cellsC10a cellsC10b (List.cons_ne_nil _ _) rfl rfl

end InterestingTopography
